import Mathlib

/-!
Verification of the OpenRCA query generator
(`src/steps/04_query_generation/inputs/query_generator.py`).

The generator's core is modelled here as executable Lean functions:

* time bucketing and wall-clock formatting (`timestamp2timeperiod`,
  `timestamp2datetime`).  The configured zone is the fixed whole-hour offset
  UTC+8, so an aware datetime is represented faithfully by its wall-clock
  linear second count `t + 28800`; Python's `replace`, `+ timedelta` and
  `strftime` act transparently on that representation.  The Gregorian
  rendering of the date part is the standard civil-from-days conversion.
* the 30-minute conflict detector (`get_half_hour_conflict_failure_flag`),
  including Python's dict semantics (insertion order, in-place overwrite) and
  the `sorted_time[i - 1]` access which at `i = 0` reads the *last* element.
* the multi-response aggregator (`get_multi_response_dict`).
* template rendering and the scoring-point synthesis of
  `generate_queries_for_dataset`, where `"\\n"` in the Python source is the
  literal two-character backslash-n separator.
* the per-record retry loop and error accounting of the dataset scan.
-/

/-! ## Python dict with Nat keys and Bool values (insertion ordered) -/

def dictInsert : List (Nat × Bool) → Nat → Bool → List (Nat × Bool)
  | [], k, v => [(k, v)]
  | (k2, v2) :: rest, k, v =>
    if k2 = k then (k, v) :: rest else (k2, v2) :: dictInsert rest k v

def dictLookup : List (Nat × Bool) → Nat → Option Bool
  | [], _ => none
  | (k2, v2) :: rest, k => if k2 = k then some v2 else dictLookup rest k

def dictKeys (d : List (Nat × Bool)) : List Nat := d.map Prod.fst

/-! ## Time bucketing (fixed UTC+8 wall clock) -/

/-- `timestamp // 1800`: the 30-minute window of a timestamp. -/
def bucketIndex (t : Nat) : Nat := t / 1800

/-- Wall-clock linear seconds of a Unix timestamp in the fixed UTC+8 zone. -/
def wallSeconds (t : Nat) : Nat := t + 28800

/-- The `minute` field of a wall-clock linear value. -/
def wallMinute (e : Nat) : Nat := e / 60 % 60

/-- The `hour` field of a wall-clock linear value. -/
def wallHour (e : Nat) : Nat := e / 3600 % 24

/-- The `second` field of a wall-clock linear value. -/
def wallSecond (e : Nat) : Nat := e % 60

/-- Gregorian `(year, month, day)` from days since 1970-01-01
(standard civil-from-days conversion). -/
def civilFromDays (n : Nat) : Nat × Nat × Nat :=
  let z := n + 719468
  let era := z / 146097
  let doe := z % 146097
  let yoe := (doe - doe / 1460 + doe / 36524 - doe / 146096) / 365
  let y := yoe + era * 400
  let doy := doe - (365 * yoe + yoe / 4 - yoe / 100)
  let mp := (5 * doy + 2) / 153
  let d := doy - (153 * mp + 2) / 5 + 1
  let m := if mp < 10 then mp + 3 else mp - 9
  (if m ≤ 2 then y + 1 else y, m, d)

def pad2 (n : Nat) : String :=
  if n < 10 then "0" ++ toString n else toString n

def pad4 (n : Nat) : String :=
  if n < 10 then "000" ++ toString n
  else if n < 100 then "00" ++ toString n
  else if n < 1000 then "0" ++ toString n
  else toString n

/-- `strftime('%Y-%m-%d %H:%M:%S')` of a wall-clock linear value. -/
def fmtCivil (e : Nat) : String :=
  let ymd := civilFromDays (e / 86400)
  pad4 ymd.1 ++ "-" ++ pad2 ymd.2.1 ++ "-" ++ pad2 ymd.2.2 ++ " " ++
    pad2 (wallHour e) ++ ":" ++ pad2 (wallMinute e) ++ ":" ++ pad2 (wallSecond e)

/-- `timestamp2timeperiod`: format the containing 30-minute period.
`start_time = time.replace(minute=minute - minute % 30, second=0, microsecond=0)`
subtracts the second field and the excess minutes;
`end_time = start_time + timedelta(minutes=30)` adds 1800 wall-clock seconds. -/
def timestamp2timeperiod (t : Nat) : String :=
  let e := wallSeconds t
  let startE := e - e % 60 - 60 * (wallMinute e % 30)
  let endE := startE + 1800
  fmtCivil startE ++ " to " ++ fmtCivil endE

/-- `timestamp2datetime`: format the timestamp itself. -/
def timestamp2datetime (t : Nat) : String := fmtCivil (wallSeconds t)

/-! ## Conflict detector -/

/-- The loop body of `get_half_hour_conflict_failure_flag`.
`prevElem` is the previously visited element of the sorted list; at the first
iteration Python's `sorted_time[i - 1]` reads index `-1`, i.e. the last
element `last`. `prevWin` is `previous_failure_timestamp`. -/
def conflictGo (last : Nat) :
    List Nat → Option Nat → Nat → List (Nat × Bool) → List (Nat × Bool)
  | [], _, _, acc => acc
  | t :: rest, prevElem, prevWin, acc =>
    if prevWin < bucketIndex t then
      conflictGo last rest (some t) (bucketIndex t) (dictInsert acc t false)
    else
      conflictGo last rest (some t) prevWin
        (dictInsert (dictInsert acc t true) (prevElem.getD last) true)

/-- `get_half_hour_conflict_failure_flag`: flag timestamps whose 30-minute
window is shared.  The timestamps are sorted ascending and scanned with
`previous_failure_timestamp` initialised to `0`. -/
def get_half_hour_conflict_failure_flag (timestamps : List Nat) : List (Nat × Bool) :=
  conflictGo ((timestamps.insertionSort (· ≤ ·)).getLastD 0)
    (timestamps.insertionSort (· ≤ ·)) none 0 []

example :
    get_half_hour_conflict_failure_flag [100, 200, 2000] =
      [(100, true), (2000, false), (200, true)] := by decide

example : get_half_hour_conflict_failure_flag [100] = [(100, true)] := by decide

example :
    get_half_hour_conflict_failure_flag [3600, 3700, 9000] =
      [(3600, true), (3700, true), (9000, false)] := by decide

example : timestamp2datetime 100 = "1970-01-01 08:01:40" := by decide

example :
    timestamp2timeperiod 100 = "1970-01-01 08:00:00 to 1970-01-01 08:30:00" := by
  decide

example :
    timestamp2timeperiod 1700000000 =
      "2023-11-15 06:00:00 to 2023-11-15 06:30:00" := by decide

/-! ## Dict lemmas -/

theorem dictLookup_dictInsert_self (d : List (Nat × Bool)) (k : Nat) (v : Bool) :
    dictLookup (dictInsert d k v) k = some v := by
  induction d with
  | nil => simp [dictInsert, dictLookup]
  | cons e rest ih =>
    obtain ⟨k2, v2⟩ := e
    by_cases h : k2 = k
    · simp [dictInsert, dictLookup, h]
    · simp [dictInsert, dictLookup, h, ih]

theorem dictLookup_dictInsert_ne (d : List (Nat × Bool)) (k : Nat) (v : Bool)
    (k2 : Nat) (h : k ≠ k2) :
    dictLookup (dictInsert d k v) k2 = dictLookup d k2 := by
  induction d with
  | nil => simp [dictInsert, dictLookup, h]
  | cons e rest ih =>
    obtain ⟨k3, v3⟩ := e
    by_cases h3 : k3 = k
    · subst h3
      simp [dictInsert, dictLookup, h]
    · rw [dictInsert, if_neg h3, dictLookup]
      by_cases h4 : k3 = k2
      · rw [if_pos h4, dictLookup, if_pos h4]
      · rw [if_neg h4, ih, dictLookup, if_neg h4]

theorem dictLookup_double_true (d : List (Nat × Bool)) (t p v : Nat)
    (hv : v = t ∨ v = p) :
    dictLookup (dictInsert (dictInsert d t true) p true) v = some true := by
  by_cases hp : p = v
  · subst hp
    exact dictLookup_dictInsert_self _ _ _
  · rcases hv with hv | hv
    · subst hv
      rw [dictLookup_dictInsert_ne _ _ _ _ hp]
      exact dictLookup_dictInsert_self _ _ _
    · exact absurd hv.symm hp

theorem dictLookup_double_ne (d : List (Nat × Bool)) (t p v : Nat)
    (ht : v ≠ t) (hp : v ≠ p) :
    dictLookup (dictInsert (dictInsert d t true) p true) v = dictLookup d v := by
  rw [dictLookup_dictInsert_ne _ _ _ _ (fun h => hp h.symm),
    dictLookup_dictInsert_ne _ _ _ _ (fun h => ht h.symm)]

theorem dictKeys_dictInsert (d : List (Nat × Bool)) (k : Nat) (v : Bool) :
    dictKeys (dictInsert d k v) =
      if k ∈ dictKeys d then dictKeys d else dictKeys d ++ [k] := by
  induction d with
  | nil => simp [dictInsert, dictKeys]
  | cons e rest ih =>
    obtain ⟨k2, v2⟩ := e
    by_cases h : k2 = k
    · subst h
      rw [dictInsert, if_pos rfl]
      simp [dictKeys]
    · rw [dictInsert, if_neg h]
      show k2 :: dictKeys (dictInsert rest k v) = _
      rw [ih]
      have hcons : dictKeys ((k2, v2) :: rest) = k2 :: dictKeys rest := rfl
      rw [hcons]
      have hiff : k ∈ k2 :: dictKeys rest ↔ k ∈ dictKeys rest := by
        constructor
        · intro hx
          rcases List.mem_cons.mp hx with hx | hx
          · exact absurd hx.symm h
          · exact hx
        · exact fun hx => List.mem_cons_of_mem _ hx
      by_cases hk : k ∈ dictKeys rest
      · rw [if_pos hk, if_pos (hiff.mpr hk)]
      · rw [if_neg hk, if_neg (fun hx => hk (hiff.mp hx))]
        rfl

theorem dictKeys_nodup_dictInsert (d : List (Nat × Bool)) (k : Nat) (v : Bool)
    (h : (dictKeys d).Nodup) : (dictKeys (dictInsert d k v)).Nodup := by
  rw [dictKeys_dictInsert]
  by_cases hk : k ∈ dictKeys d
  · rwa [if_pos hk]
  · rw [if_neg hk]
    simp [List.nodup_append, h, hk]

/-! ## Conflict-detector loop lemmas -/

theorem conflictGo_preserve_true (last : Nat) (rest : List Nat) :
    ∀ (pe : Option Nat) (pw : Nat) (acc : List (Nat × Bool)) (t : Nat),
      dictLookup acc t = some true → bucketIndex t ≤ pw →
      dictLookup (conflictGo last rest pe pw acc) t = some true := by
  induction rest with
  | nil => intro pe pw acc t hacc _; simpa [conflictGo] using hacc
  | cons u rest ih =>
    intro pe pw acc t hacc hle
    by_cases hfresh : pw < bucketIndex u
    · rw [conflictGo, if_pos hfresh]
      refine ih _ _ _ _ ?_ (le_of_lt (lt_of_le_of_lt hle hfresh))
      have hne : u ≠ t := by
        intro h
        subst h
        exact absurd hfresh (not_lt.mpr hle)
      rw [dictLookup_dictInsert_ne _ _ _ _ hne]
      exact hacc
    · rw [conflictGo, if_neg hfresh]
      refine ih _ _ _ _ ?_ hle
      by_cases ht : t = u ∨ t = (pe.getD last)
      · exact dictLookup_double_true _ _ _ _ ht
      · push_neg at ht
        rw [dictLookup_double_ne _ _ _ _ ht.1 ht.2]
        exact hacc

theorem conflictGo_count_one (last : Nat) (rest : List Nat) :
    ∀ (pe : Option Nat) (pw : Nat) (acc : List (Nat × Bool)) (t : Nat),
      List.Sorted (· ≤ ·) rest → 1 ≤ rest.count t → bucketIndex t ≤ pw →
      dictLookup (conflictGo last rest pe pw acc) t = some true := by
  induction rest with
  | nil => intro pe pw acc t _ hcount _; simp at hcount
  | cons u rest ih =>
    intro pe pw acc t hsort hcount hle
    by_cases hu : u = t
    · subst hu
      have hnotfresh : ¬ pw < bucketIndex u := not_lt.mpr hle
      rw [conflictGo, if_neg hnotfresh]
      exact conflictGo_preserve_true _ _ _ _ _ _
        (dictLookup_double_true _ _ _ _ (Or.inl rfl)) hle
    · have htmem : t ∈ rest := by
        have : t ∈ u :: rest := List.count_pos_iff.mp (lt_of_lt_of_le Nat.zero_lt_one hcount)
        rcases this with _ | h
        · exact absurd rfl hu
        · assumption
      have hut : u ≤ t := ((List.sorted_cons.mp hsort).1) t htmem
      have hwin : bucketIndex u ≤ bucketIndex t := Nat.div_le_div_right hut
      have hnotfresh : ¬ pw < bucketIndex u := fun h =>
        absurd (lt_of_lt_of_le h (le_trans hwin hle)) (lt_irrefl pw)
      rw [conflictGo, if_neg hnotfresh]
      refine ih _ _ _ _ (List.sorted_cons.mp hsort).2 ?_ hle
      have : rest.count t = (u :: rest).count t := by
        rw [List.count_cons]
        simp [hu]
      omega


theorem conflictGo_count_two (last : Nat) (rest : List Nat) :
    ∀ (pe : Option Nat) (pw : Nat) (acc : List (Nat × Bool)) (t : Nat),
      List.Sorted (· ≤ ·) rest → 2 ≤ rest.count t →
      dictLookup (conflictGo last rest pe pw acc) t = some true := by
  induction rest with
  | nil => intro pe pw acc t _ h; simp at h
  | cons u rest ih =>
    intro pe pw acc t hsort hcount
    by_cases hu : u = t
    · subst hu
      have hself : (u :: rest).count u = rest.count u + 1 := List.count_cons_self u rest
      have hc1 : 1 ≤ rest.count u := by omega
      by_cases hfresh : pw < bucketIndex u
      · rw [conflictGo, if_pos hfresh]
        exact conflictGo_count_one _ _ _ _ _ _ (List.sorted_cons.mp hsort).2 hc1 le_rfl
      · rw [conflictGo, if_neg hfresh]
        exact conflictGo_count_one _ _ _ _ _ _ (List.sorted_cons.mp hsort).2 hc1
          (not_lt.mp hfresh)
    · have hcc : (u :: rest).count t = rest.count t :=
        List.count_cons_of_ne (fun h => hu h.symm) rest
      have hc2 : 2 ≤ rest.count t := by omega
      by_cases hfresh : pw < bucketIndex u
      · rw [conflictGo, if_pos hfresh]
        exact ih _ _ _ _ (List.sorted_cons.mp hsort).2 hc2
      · rw [conflictGo, if_neg hfresh]
        exact ih _ _ _ _ (List.sorted_cons.mp hsort).2 hc2

theorem conflictGo_keys_nodup (last : Nat) (rest : List Nat) :
    ∀ (pe : Option Nat) (pw : Nat) (acc : List (Nat × Bool)),
      (dictKeys acc).Nodup → (dictKeys (conflictGo last rest pe pw acc)).Nodup := by
  induction rest with
  | nil => intro pe pw acc h; simpa [conflictGo] using h
  | cons u rest ih =>
    intro pe pw acc h
    by_cases hfresh : pw < bucketIndex u
    · rw [conflictGo, if_pos hfresh]
      exact ih _ _ _ (dictKeys_nodup_dictInsert _ _ _ h)
    · rw [conflictGo, if_neg hfresh]
      exact ih _ _ _ (dictKeys_nodup_dictInsert _ _ _ (dictKeys_nodup_dictInsert _ _ _ h))

/-- Characterisation of the conflict-detector loop away from window 0.
Clause 1: an element of the remaining sorted list ends flagged `true` exactly
when its window is shared, counting the pending previous element of the same
window.  Clause 2: the pending previous element is flagged `true` exactly when
the remaining list still holds a member of its window.  Clause 3: all other
keys are untouched. -/
theorem conflictGo_char (last : Nat) (rest : List Nat) :
    ∀ (pe : Option Nat) (pw : Nat) (acc : List (Nat × Bool)),
      List.Sorted (· ≤ ·) rest →
      (∀ t ∈ rest, pw ≤ bucketIndex t) →
      (pe = none ∧ (∀ t ∈ rest, pw < bucketIndex t) ∨
        ∃ p, pe = some p ∧ bucketIndex p = pw ∧ (∀ t ∈ rest, p ≤ t)) →
      (∀ v ∈ rest,
          dictLookup (conflictGo last rest pe pw acc) v =
            some (decide (2 ≤ rest.countP (fun x => bucketIndex x == bucketIndex v) +
              if pe.isSome = true ∧ bucketIndex v = pw then 1 else 0))) ∧
      (∀ v, v ∉ rest → pe = some v →
          dictLookup (conflictGo last rest pe pw acc) v =
            if 1 ≤ rest.countP (fun x => bucketIndex x == pw) then some true
            else dictLookup acc v) ∧
      (∀ v, v ∉ rest → pe ≠ some v →
          dictLookup (conflictGo last rest pe pw acc) v = dictLookup acc v) := by
  induction rest with
  | nil =>
    intro pe pw acc _ _ _
    refine ⟨by simp, ?_, ?_⟩
    · intro v _ _
      simp [conflictGo]
    · intro v _ _
      simp [conflictGo]
  | cons u rest ih =>
    intro pe pw acc hsort hle hmode
    have hsort2 := (List.sorted_cons.mp hsort).2
    have hhead : ∀ x ∈ rest, u ≤ x := (List.sorted_cons.mp hsort).1
    have hle2 : ∀ x ∈ rest, pw ≤ bucketIndex x := fun x hx =>
      hle x (List.mem_cons_of_mem _ hx)
    by_cases hfresh : pw < bucketIndex u
    · -- fresh-window branch
      have hgo : conflictGo last (u :: rest) pe pw acc =
          conflictGo last rest (some u) (bucketIndex u) (dictInsert acc u false) := by
        rw [conflictGo, if_pos hfresh]
      have hwle : ∀ x ∈ rest, bucketIndex u ≤ bucketIndex x := fun x hx =>
        Nat.div_le_div_right (hhead x hx)
      obtain ⟨A, B, C⟩ := ih (some u) (bucketIndex u) (dictInsert acc u false)
        hsort2 hwle (Or.inr ⟨u, rfl, rfl, hhead⟩)
      have hnowin : ∀ x ∈ u :: rest, pw < bucketIndex x := by
        intro x hx
        rcases List.mem_cons.mp hx with hx | hx
        · subst hx; exact hfresh
        · exact lt_of_lt_of_le hfresh (hwle x hx)
      refine ⟨?_, ?_, ?_⟩
      · intro v hv
        have hvpw : ¬ (pe.isSome = true ∧ bucketIndex v = pw) := by
          rintro ⟨_, hw⟩
          exact absurd hw.symm (ne_of_lt (hnowin v hv))
        rw [hgo, if_neg hvpw]
        by_cases hvrest : v ∈ rest
        · rw [A v hvrest, List.countP_cons]
          simp only [Option.isSome_some, true_and, beq_iff_eq]
          split_ifs with h1 h2 <;>
            exact congrArg some (decide_eq_decide.mpr (by omega))
        · have hvu : v = u := by
            rcases List.mem_cons.mp hv with h | h
            · exact h
            · exact absurd h hvrest
          subst hvu
          have hcons : List.countP (fun x => bucketIndex x == bucketIndex v) (v :: rest)
              = List.countP (fun x => bucketIndex x == bucketIndex v) rest + 1 := by
            rw [List.countP_cons]
            simp
          rw [B v hvrest rfl, dictLookup_dictInsert_self, hcons]
          by_cases h1 : 1 ≤ List.countP (fun x => bucketIndex x == bucketIndex v) rest
          · rw [if_pos h1]
            exact congrArg some (by rw [eq_comm, decide_eq_true_eq]; omega)
          · rw [if_neg h1]
            exact congrArg some (by rw [eq_comm, decide_eq_false_iff_not]; omega)
      · intro v hv hpe
        have hvu : v ≠ u := fun h => hv (h ▸ List.mem_cons_self v rest)
        have hvrest : v ∉ rest := fun h => hv (List.mem_cons_of_mem _ h)
        have hder : ¬ 1 ≤ List.countP (fun x => bucketIndex x == pw) (u :: rest) := by
          intro hcount
          have hpos : 0 < List.countP (fun x => bucketIndex x == pw) (u :: rest) := by
            omega
          obtain ⟨x, hx, hpx⟩ := List.countP_pos_iff.mp hpos
          have hxw : bucketIndex x = pw := by simpa using hpx
          exact absurd hxw.symm (ne_of_lt (hnowin x hx))
        rw [hgo, C v hvrest (fun h => hvu (Option.some.inj h).symm),
          dictLookup_dictInsert_ne _ _ _ _ (fun h => hvu h.symm), if_neg hder]
      · intro v hv hpev
        have hvu : v ≠ u := fun h => hv (h ▸ List.mem_cons_self v rest)
        have hvrest : v ∉ rest := fun h => hv (List.mem_cons_of_mem _ h)
        rw [hgo, C v hvrest (fun h => hvu (Option.some.inj h).symm),
          dictLookup_dictInsert_ne _ _ _ _ (fun h => hvu h.symm)]
    · -- same-window branch
      have hwu : bucketIndex u = pw :=
        le_antisymm (not_lt.mp hfresh) (hle u (List.mem_cons_self u rest))
      rcases hmode with ⟨_, hstrict⟩ | ⟨p, hpe, hwp, hple⟩
      · exact absurd (hstrict u (List.mem_cons_self u rest)) hfresh
      subst hpe
      have hgo : conflictGo last (u :: rest) (some p) pw acc =
          conflictGo last rest (some u) pw
            (dictInsert (dictInsert acc u true) p true) := by
        rw [conflictGo, if_neg hfresh]
        rfl
      obtain ⟨A, B, C⟩ := ih (some u) pw (dictInsert (dictInsert acc u true) p true)
        hsort2 hle2 (Or.inr ⟨u, rfl, hwu, hhead⟩)
      refine ⟨?_, ?_, ?_⟩
      · intro v hv
        rw [hgo]
        by_cases hvrest : v ∈ rest
        · have hc : 0 < List.countP (fun x => bucketIndex x == bucketIndex v) rest :=
            List.countP_pos_iff.mpr ⟨v, hvrest, by simp⟩
          rw [A v hvrest, List.countP_cons]
          simp only [Option.isSome_some, true_and, beq_iff_eq]
          split_ifs with h1 h2 h3 <;>
            exact congrArg some (decide_eq_decide.mpr (by omega))
        · have hvu : v = u := by
            rcases List.mem_cons.mp hv with h | h
            · exact h
            · exact absurd h hvrest
          subst hvu
          have hcons : List.countP (fun x => bucketIndex x == bucketIndex v) (v :: rest)
              = List.countP (fun x => bucketIndex x == bucketIndex v) rest + 1 := by
            rw [List.countP_cons]
            simp
          rw [B v hvrest rfl, dictLookup_double_true _ _ _ _ (Or.inl rfl), hcons]
          have hif : ((some p).isSome = true ∧ bucketIndex v = pw) := ⟨rfl, hwu⟩
          rw [if_pos hif, decide_eq_true (by omega :
            2 ≤ List.countP (fun x => bucketIndex x == bucketIndex v) rest + 1 + 1),
            ite_self]
      · intro v hv hpev
        have hvp : v = p := (Option.some.inj hpev).symm
        subst hvp
        have hvu : v ≠ u := fun h => hv (h ▸ List.mem_cons_self v rest)
        have hvrest : v ∉ rest := fun h => hv (List.mem_cons_of_mem _ h)
        have hcpos : 1 ≤ List.countP (fun x => bucketIndex x == pw) (u :: rest) := by
          have hb : (bucketIndex u == pw) = true := by simp [hwu]
          rw [List.countP_cons, hb, if_pos rfl]
          omega
        rw [hgo, C v hvrest (fun h => hvu (Option.some.inj h).symm),
          dictLookup_double_true _ _ _ _ (Or.inr rfl), if_pos hcpos]
      · intro v hv hpev
        have hvp : v ≠ p := fun h => hpev (by rw [h])
        have hvu : v ≠ u := fun h => hv (h ▸ List.mem_cons_self v rest)
        have hvrest : v ∉ rest := fun h => hv (List.mem_cons_of_mem _ h)
        rw [hgo, C v hvrest (fun h => hvu (Option.some.inj h).symm),
          dictLookup_double_ne _ _ _ _ hvu hvp]

/-! ## Conflict-detector corollaries used by the claims -/

theorem get_flag_char (ts : List Nat) (h1800 : ∀ t ∈ ts, 1800 ≤ t) (t : Nat)
    (ht : t ∈ ts) :
    dictLookup (get_half_hour_conflict_failure_flag ts) t =
      some (decide (2 ≤ ts.countP (fun u => bucketIndex u == bucketIndex t))) := by
  have hperm : (ts.insertionSort (· ≤ ·)).Perm ts := List.perm_insertionSort _ _
  have hsorted : List.Sorted (· ≤ ·) (ts.insertionSort (· ≤ ·)) :=
    List.sorted_insertionSort _ _
  have hmem : t ∈ ts.insertionSort (· ≤ ·) := hperm.mem_iff.mpr ht
  have hstrict : ∀ x ∈ ts.insertionSort (· ≤ ·), 0 < bucketIndex x := by
    intro x hx
    have hx1800 : 1800 ≤ x := h1800 x (hperm.mem_iff.mp hx)
    have : 1 ≤ x / 1800 := (Nat.one_le_div_iff (by norm_num)).mpr hx1800
    exact this
  obtain ⟨A, _, _⟩ := conflictGo_char ((ts.insertionSort (· ≤ ·)).getLastD 0)
    (ts.insertionSort (· ≤ ·)) none 0 [] hsorted
    (fun x _ => Nat.zero_le _) (Or.inl ⟨rfl, hstrict⟩)
  rw [get_half_hour_conflict_failure_flag, A t hmem,
    if_neg (by simp : ¬ ((none : Option Nat).isSome = true ∧ bucketIndex t = 0)),
    Nat.add_zero, hperm.countP_eq]

theorem get_flag_count_two (ts : List Nat) (t : Nat) (h2 : 2 ≤ ts.count t) :
    dictLookup (get_half_hour_conflict_failure_flag ts) t = some true := by
  have hperm : (ts.insertionSort (· ≤ ·)).Perm ts := List.perm_insertionSort _ _
  have hsorted : List.Sorted (· ≤ ·) (ts.insertionSort (· ≤ ·)) :=
    List.sorted_insertionSort _ _
  rw [get_half_hour_conflict_failure_flag]
  exact conflictGo_count_two _ _ _ _ _ _ hsorted (by rw [hperm.count_eq]; exact h2)

/-! ## Claims about the conflict detector -/

/-- Claim C1, amended: provided every timestamp is at least 1800 (so no record
falls in window 0), the flag map flags a timestamp `true` exactly when its
30-minute window (`timestamp div 1800`) holds at least two records, and
`false` when it is the window's only record.  The restriction is forced by
the initialisation `previous_failure_timestamp = 0`, which makes the detector
treat the very first record as a window collision whenever its window index
is 0 (see the counterexample). -/
theorem conflict_flag_iff_shared_window (ts : List Nat) (t : Nat)
    (h1800 : ∀ x ∈ ts, 1800 ≤ x) (ht : t ∈ ts) :
    dictLookup (get_half_hour_conflict_failure_flag ts) t =
      some (decide (2 ≤ ts.countP (fun u => bucketIndex u == bucketIndex t))) :=
  get_flag_char ts h1800 t ht

theorem conflict_flag_iff_shared_window_witness :
    dictLookup (get_half_hour_conflict_failure_flag [1800, 1900, 5400]) 1800 =
        some true ∧
      dictLookup (get_half_hour_conflict_failure_flag [1800, 1900, 5400]) 5400 =
        some false := by
  constructor
  · have h := conflict_flag_iff_shared_window [1800, 1900, 5400] 1800
      (by decide) (by decide)
    rw [h]
    decide
  · have h := conflict_flag_iff_shared_window [1800, 1900, 5400] 5400
      (by decide) (by decide)
    rw [h]
    decide

/-- Claim C1, counterexample: on input `[100]` the single record owns window 0
alone, yet the detector flags it `true` (the claim as stated requires
`false` for a window holding exactly one record). -/
theorem conflict_flag_window0_counterexample :
    List.countP (fun u => bucketIndex u == bucketIndex 100) [100] = 1 ∧
      dictLookup (get_half_hour_conflict_failure_flag [100]) 100 = some true := by
  decide

/-- Claim C2: for input `[100, 200, 2000]` the detector returns the flag map
`100 ↦ true, 200 ↦ true, 2000 ↦ false`, whose key set is exactly the input
timestamps. -/
theorem conflict_scenario_100_200_2000 :
    dictLookup (get_half_hour_conflict_failure_flag [100, 200, 2000]) 100 =
        some true ∧
      dictLookup (get_half_hour_conflict_failure_flag [100, 200, 2000]) 200 =
        some true ∧
      dictLookup (get_half_hour_conflict_failure_flag [100, 200, 2000]) 2000 =
        some false ∧
      (dictKeys (get_half_hour_conflict_failure_flag [100, 200, 2000])).Perm
        [100, 200, 2000] := by
  decide

/-- Claim C8: `bucket_index` is `timestamp div 1800`, monotone non-decreasing
in the timestamp, and idempotent under re-computation (being a pure function,
recomputing it on the same timestamp yields the same value). -/
theorem bucketIndex_monotone_deterministic (t1 t2 : Nat) (h : t1 ≤ t2) :
    bucketIndex t1 ≤ bucketIndex t2 ∧ bucketIndex t1 = t1 / 1800 ∧
      bucketIndex t1 = bucketIndex t1 :=
  ⟨Nat.div_le_div_right h, rfl, rfl⟩

theorem bucketIndex_monotone_deterministic_witness :
    bucketIndex 1700 ≤ bucketIndex 2000 ∧ bucketIndex 1700 = 1700 / 1800 ∧
      bucketIndex 1700 = bucketIndex 1700 :=
  bucketIndex_monotone_deterministic 1700 2000 (by decide)

/-- Claim C9: the flag map is keyed by timestamp value (its key list is
duplicate-free, so equal timestamps collapse to one entry), and a timestamp
occurring at least twice in the input is finally flagged `true`. -/
theorem duplicate_timestamp_single_key_true (ts : List Nat) (t : Nat)
    (h2 : 2 ≤ ts.count t) :
    (dictKeys (get_half_hour_conflict_failure_flag ts)).Nodup ∧
      dictLookup (get_half_hour_conflict_failure_flag ts) t = some true := by
  constructor
  · rw [get_half_hour_conflict_failure_flag]
    exact conflictGo_keys_nodup _ _ _ _ _ (by simp [dictKeys])
  · exact get_flag_count_two ts t h2

theorem duplicate_timestamp_single_key_true_witness :
    (dictKeys (get_half_hour_conflict_failure_flag [100, 100])).Nodup ∧
      dictLookup (get_half_hour_conflict_failure_flag [100, 100]) 100 =
        some true :=
  duplicate_timestamp_single_key_true [100, 100] 100 (by decide)

/-! ## Time-period claims -/

theorem timeperiod_eq_floor (t : Nat) :
    timestamp2timeperiod t =
      fmtCivil (1800 * (wallSeconds t / 1800)) ++ " to " ++
        fmtCivil (1800 * (wallSeconds t / 1800) + 1800) := by
  have he : wallSeconds t - wallSeconds t % 60 - 60 * (wallMinute (wallSeconds t) % 30)
      = 1800 * (wallSeconds t / 1800) := by
    unfold wallMinute
    omega
  simp only [timestamp2timeperiod]
  rw [he]

/-- Claim C7: `timestamp2timeperiod` returns `"{start} to {end}"` where the
start is the wall-clock instant of the timestamp in the fixed UTC+8 zone with
the minute field truncated down to a multiple of 30 and the seconds zeroed
(equivalently, since the offset is a whole number of hours, the wall-clock
value floored to a multiple of 1800 seconds: same date, same hour, truncated
minute, zero second), the end is the start plus 30 minutes (1800 seconds),
and both are rendered as `YYYY-MM-DD HH:MM:SS`.  Purity is inherent: the
result is a function of the timestamp and the fixed zone offset only. -/
theorem timeperiod_truncation_spec (t : Nat) :
    timestamp2timeperiod t =
        fmtCivil (1800 * (wallSeconds t / 1800)) ++ " to " ++
          fmtCivil (1800 * (wallSeconds t / 1800) + 1800) ∧
      (1800 * (wallSeconds t / 1800)) / 86400 = wallSeconds t / 86400 ∧
      wallHour (1800 * (wallSeconds t / 1800)) = wallHour (wallSeconds t) ∧
      wallMinute (1800 * (wallSeconds t / 1800)) =
        wallMinute (wallSeconds t) - wallMinute (wallSeconds t) % 30 ∧
      wallMinute (1800 * (wallSeconds t / 1800)) % 30 = 0 ∧
      wallSecond (1800 * (wallSeconds t / 1800)) = 0 := by
  refine ⟨timeperiod_eq_floor t, by omega, ?_, ?_, ?_, ?_⟩
  · unfold wallHour
    omega
  · unfold wallMinute
    omega
  · unfold wallMinute
    omega
  · unfold wallSecond
    omega

/-- Claim C10: the instant formatted by `timestamp2datetime` lies inside the
half-open 30-minute interval whose endpoints `timestamp2timeperiod` formats:
the period string is exactly the renderings of the wall-clock values `ws` and
`ws + 1800` with `ws ≤ e < ws + 1800`, where `e` is the wall-clock value the
datetime string renders. -/
theorem datetime_inside_period (t : Nat) :
    timestamp2datetime t = fmtCivil (wallSeconds t) ∧
      timestamp2timeperiod t =
        fmtCivil (1800 * (wallSeconds t / 1800)) ++ " to " ++
          fmtCivil (1800 * (wallSeconds t / 1800) + 1800) ∧
      1800 * (wallSeconds t / 1800) ≤ wallSeconds t ∧
      wallSeconds t < 1800 * (wallSeconds t / 1800) + 1800 := by
  refine ⟨rfl, timeperiod_eq_floor t, ?_, ?_⟩ <;> omega

/-! ## Failure records and the multi-response aggregator -/

structure FailureRecord where
  timestamp : Nat
  component : String
  reason : String
deriving DecidableEq

structure MultiDict where
  datetime : List String
  component : List String
  reason : List String
deriving DecidableEq

/-- The scan of `get_multi_response_dict`: walk the ground-truth table in
order, keeping every record whose window equals `w`, incrementing `num` and
appending the formatted datetime, the component and the reason. -/
def multiResponseGo (w : Nat) : List FailureRecord → Nat × MultiDict
  | [] => (0, ⟨[], [], []⟩)
  | r :: rest =>
    if bucketIndex r.timestamp == w then
      ((multiResponseGo w rest).1 + 1,
        ⟨timestamp2datetime r.timestamp :: (multiResponseGo w rest).2.datetime,
          r.component :: (multiResponseGo w rest).2.component,
          r.reason :: (multiResponseGo w rest).2.reason⟩)
    else multiResponseGo w rest

/-- `get_multi_response_dict`: all records co-located with `row`'s window. -/
def get_multi_response_dict (row : FailureRecord) (meta : List FailureRecord) :
    Nat × MultiDict :=
  multiResponseGo (bucketIndex row.timestamp) meta

theorem multiResponseGo_eq_filter (w : Nat) (l : List FailureRecord) :
    multiResponseGo w l =
      ((l.filter (fun r => bucketIndex r.timestamp == w)).length,
        ⟨(l.filter (fun r => bucketIndex r.timestamp == w)).map
            (fun r => timestamp2datetime r.timestamp),
          (l.filter (fun r => bucketIndex r.timestamp == w)).map
            (fun r => r.component),
          (l.filter (fun r => bucketIndex r.timestamp == w)).map
            (fun r => r.reason)⟩) := by
  induction l with
  | nil => rfl
  | cons r rest ih =>
    by_cases h : bucketIndex r.timestamp == w
    · rw [multiResponseGo, if_pos h, ih]
      simp [List.filter_cons, h]
    · rw [multiResponseGo, if_neg h, ih]
      simp only [List.filter_cons]
      rw [if_neg (by simpa using h)]

theorem two_indices_two_countP (l : List FailureRecord) (p : FailureRecord → Bool)
    (i j : Nat) (hi : i < l.length) (hj : j < l.length) (hij : i ≠ j)
    (hpi : p (l.get ⟨i, hi⟩) = true) (hpj : p (l.get ⟨j, hj⟩) = true) :
    2 ≤ l.countP p := by
  induction l generalizing i j with
  | nil => exact absurd hi (Nat.not_lt_zero i)
  | cons a rest ih =>
    rw [List.countP_cons]
    cases i with
    | zero =>
      cases j with
      | zero => exact absurd rfl hij
      | succ j =>
        have ha : p a = true := hpi
        have hmem : rest.get ⟨j, Nat.lt_of_succ_lt_succ hj⟩ ∈ rest :=
          List.get_mem _ _ _
        have hpos : 0 < rest.countP p := List.countP_pos_iff.mpr ⟨_, hmem, hpj⟩
        rw [ha, if_pos rfl]
        omega
    | succ i =>
      cases j with
      | zero =>
        have ha : p a = true := hpj
        have hmem : rest.get ⟨i, Nat.lt_of_succ_lt_succ hi⟩ ∈ rest :=
          List.get_mem _ _ _
        have hpos : 0 < rest.countP p := List.countP_pos_iff.mpr ⟨_, hmem, hpi⟩
        rw [ha, if_pos rfl]
        omega
      | succ j =>
        have := ih i j (Nat.lt_of_succ_lt_succ hi) (Nat.lt_of_succ_lt_succ hj)
          (fun h => hij (by rw [h])) hpi hpj
        omega

/-- Claim C5: `get_multi_response_dict` returns exactly the records whose
30-minute window equals the target row's window, as three parallel lists in
the order of the underlying record sequence (a sublist of it — stable, not
re-sorted), with `num` equal to the common length of the three lists; and
when the target's window is genuinely shared (two distinct positions of the
table carry its window), `num ≥ 2`. -/
theorem multi_response_collects_window (row : FailureRecord)
    (meta : List FailureRecord) (i j : Nat) (hi : i < meta.length)
    (hj : j < meta.length) (hij : i ≠ j)
    (hwi : bucketIndex (meta.get ⟨i, hi⟩).timestamp = bucketIndex row.timestamp)
    (hwj : bucketIndex (meta.get ⟨j, hj⟩).timestamp = bucketIndex row.timestamp) :
    (get_multi_response_dict row meta).2.datetime =
        (meta.filter (fun r => bucketIndex r.timestamp == bucketIndex row.timestamp)).map
          (fun r => timestamp2datetime r.timestamp) ∧
      (get_multi_response_dict row meta).2.component =
        (meta.filter (fun r => bucketIndex r.timestamp == bucketIndex row.timestamp)).map
          (fun r => r.component) ∧
      (get_multi_response_dict row meta).2.reason =
        (meta.filter (fun r => bucketIndex r.timestamp == bucketIndex row.timestamp)).map
          (fun r => r.reason) ∧
      (get_multi_response_dict row meta).1 =
        (get_multi_response_dict row meta).2.datetime.length ∧
      (get_multi_response_dict row meta).1 =
        (get_multi_response_dict row meta).2.component.length ∧
      (get_multi_response_dict row meta).1 =
        (get_multi_response_dict row meta).2.reason.length ∧
      (meta.filter (fun r => bucketIndex r.timestamp == bucketIndex row.timestamp)).Sublist
        meta ∧
      (∀ r ∈ meta.filter (fun r => bucketIndex r.timestamp == bucketIndex row.timestamp),
        bucketIndex r.timestamp = bucketIndex row.timestamp) ∧
      (∀ r ∈ meta, bucketIndex r.timestamp = bucketIndex row.timestamp →
        r ∈ meta.filter (fun r => bucketIndex r.timestamp == bucketIndex row.timestamp)) ∧
      2 ≤ (get_multi_response_dict row meta).1 := by
  have hchar := multiResponseGo_eq_filter (bucketIndex row.timestamp) meta
  rw [get_multi_response_dict, hchar]
  refine ⟨rfl, rfl, rfl, by simp, by simp, by simp, List.filter_sublist _, ?_, ?_, ?_⟩
  · intro r hr
    have := List.of_mem_filter hr
    simpa using this
  · intro r hr hwr
    exact List.mem_filter.mpr ⟨hr, by simpa using hwr⟩
  · rw [← List.countP_eq_length_filter]
    exact two_indices_two_countP meta _ i j hi hj hij (by simpa using hwi)
      (by simpa using hwj)

theorem multi_response_collects_window_witness :
    2 ≤ (get_multi_response_dict ⟨100, "a", "x"⟩
        [⟨100, "a", "x"⟩, ⟨200, "b", "y"⟩]).1 :=
  (multi_response_collects_window ⟨100, "a", "x"⟩
    [⟨100, "a", "x"⟩, ⟨200, "b", "y"⟩] 0 1 (by decide) (by decide) (by decide)
    (by decide) (by decide)).2.2.2.2.2.2.2.2.2

/-! ## Format-string templates and scoring-point synthesis -/

inductive FieldKey where
  | idx
  | time_period
  | datetime
  | component
  | reason
  | num
deriving DecidableEq

/-- A piece of a Python format string: literal text or a named placeholder. -/
inductive Chunk where
  | lit (s : String)
  | field (k : FieldKey)
deriving DecidableEq

/-- `str.format` with keyword arguments `env`: substitutes each placeholder,
failing (Python `KeyError`) when a referenced key is not supplied. -/
def renderTemplate (env : FieldKey → Option String) : List Chunk → Option String
  | [] => some ""
  | Chunk.lit s :: rest =>
    match renderTemplate env rest with
    | some r => some (s ++ r)
    | none => none
  | Chunk.field k :: rest =>
    match env k with
    | none => none
    | some v =>
      match renderTemplate env rest with
      | some r => some (v ++ r)
      | none => none

def renderAll (env : FieldKey → Option String) : List (List Chunk) → Option (List String)
  | [] => some []
  | t :: ts =>
    match renderTemplate env t, renderAll env ts with
    | some s, some ss => some (s :: ss)
    | _, _ => none

/-- The separator the source appends: the literal two characters of `"\\n"`
in the Python text. -/
def pysep : String := "\\n"

/-- Python `"\\n".join`. -/
def joinSep : List String → String
  | [] => ""
  | [s] => s
  | s :: rest => s ++ pysep ++ joinSep rest

/-- Environment of the multi-failure render at index `i`:
`idx = f'{i+1}-th'` plus the i-th entries of the answer lists; `time_period`
is not supplied there. -/
def multiEnv (i : Nat) (d c r : String) : FieldKey → Option String
  | FieldKey.idx => some (toString (i + 1) ++ "-th")
  | FieldKey.datetime => some d
  | FieldKey.component => some c
  | FieldKey.reason => some r
  | _ => none

/-- Environment of the single-failure render. -/
def singleEnv (tp dt c r : String) : FieldKey → Option String
  | FieldKey.idx => some "only"
  | FieldKey.time_period => some tp
  | FieldKey.datetime => some dt
  | FieldKey.component => some c
  | FieldKey.reason => some r
  | FieldKey.num => none

/-- Multi-failure loop of the scoring-point synthesis: for `i` in
`range(num)`, render the whole template list, join with the separator, append
a trailing separator, and concatenate the blocks.  Python evaluates the
`ans[...][i]` argument expressions before formatting, so an out-of-range
index fails the record. -/
def multiScoringGo (tpls : List (List Chunk)) (ans : MultiDict) :
    Nat → Nat → Option String
  | _, 0 => some ""
  | i, fuel + 1 =>
    match ans.datetime.get? i, ans.reason.get? i, ans.component.get? i with
    | some d, some r, some c =>
      match renderAll (multiEnv i d c r) tpls with
      | some filled =>
        match multiScoringGo tpls ans (i + 1) fuel with
        | some restS => some (joinSep filled ++ pysep ++ restS)
        | none => none
      | none => none
    | _, _, _ => none

def multiScoringPoints (tpls : List (List Chunk)) (ans : MultiDict)
    (num : Nat) : Option String :=
  multiScoringGo tpls ans 0 num

/-- Single-failure scoring-point synthesis: each rendered template followed by
the separator. -/
def singleScoringPoints (env : FieldKey → Option String) :
    List (List Chunk) → Option String
  | [] => some ""
  | tpl :: rest =>
    match renderTemplate env tpl, singleScoringPoints env rest with
    | some s, some restS => some (s ++ pysep ++ restS)
    | _, _ => none

/-- The claim's comparator: the concatenation of `num` single-style renders,
the i-th using `idx = f'{i+1}-th'` and the i-th answer entries. -/
def concatSingleRenders (tpls : List (List Chunk)) (ans : MultiDict) :
    Nat → Nat → Option String
  | _, 0 => some ""
  | i, fuel + 1 =>
    match ans.datetime.get? i, ans.reason.get? i, ans.component.get? i with
    | some d, some r, some c =>
      match singleScoringPoints (multiEnv i d c r) tpls,
          concatSingleRenders tpls ans (i + 1) fuel with
      | some s, some restS => some (s ++ restS)
      | _, _ => none
    | _, _, _ => none

theorem renderAll_length (env : FieldKey → Option String) :
    ∀ (ts : List (List Chunk)) (fs : List String),
      renderAll env ts = some fs → fs.length = ts.length := by
  intro ts
  induction ts with
  | nil =>
    intro fs h
    rw [renderAll] at h
    injection h with h
    rw [← h]
    rfl
  | cons t ts ih =>
    intro fs h
    rw [renderAll] at h
    cases hr : renderTemplate env t <;> rw [hr] at h
    · exact absurd h (by simp)
    · cases ha : renderAll env ts <;> rw [ha] at h
      · exact absurd h (by simp)
      · injection h with h
        rw [← h]
        simp [ih _ ha]

theorem singleScoringPoints_eq_join (env : FieldKey → Option String) :
    ∀ (tpls : List (List Chunk)), tpls ≠ [] →
      singleScoringPoints env tpls =
        (renderAll env tpls).map (fun fs => joinSep fs ++ pysep) := by
  intro tpls
  induction tpls with
  | nil => intro h; exact absurd rfl h
  | cons t rest ih =>
    intro _
    rcases rest with _ | ⟨t2, rest2⟩
    · cases hr : renderTemplate env t with
      | none => simp [singleScoringPoints, renderAll, hr]
      | some s =>
        simp [singleScoringPoints, renderAll, hr, joinSep]
    · have ihh := ih (by simp)
      cases hr : renderTemplate env t with
      | none =>
        rw [singleScoringPoints, renderAll, hr]
        rfl
      | some s =>
        cases hall : renderAll env (t2 :: rest2) with
        | none =>
          have hsingle : singleScoringPoints env (t2 :: rest2) = none := by
            rw [ihh, hall]
            rfl
          rw [singleScoringPoints, renderAll, hr, hall, hsingle]
          rfl
        | some fs =>
          have hlen : fs.length = (t2 :: rest2).length := renderAll_length env _ _ hall
          rcases fs with _ | ⟨f, fs2⟩
          · simp at hlen
          · have hsingle : singleScoringPoints env (t2 :: rest2) =
                some (joinSep (f :: fs2) ++ pysep) := by
              rw [ihh, hall]
              rfl
            rw [singleScoringPoints, renderAll, hr, hall, hsingle]
            have hjoin : joinSep (s :: f :: fs2) = s ++ pysep ++ joinSep (f :: fs2) := rfl
            dsimp only [Option.map]
            rw [hjoin]
            simp [String.append_assoc]

theorem multiScoringGo_eq_concat (tpls : List (List Chunk)) (h : tpls ≠ [])
    (ans : MultiDict) :
    ∀ (fuel i : Nat),
      multiScoringGo tpls ans i fuel = concatSingleRenders tpls ans i fuel := by
  intro fuel
  induction fuel with
  | zero => intro i; rfl
  | succ fuel ih =>
    intro i
    rw [multiScoringGo, concatSingleRenders]
    cases hd : ans.datetime.get? i with
    | none => rfl
    | some d =>
      cases hr : ans.reason.get? i with
      | none => rfl
      | some r =>
        cases hc : ans.component.get? i with
        | none => rfl
        | some c =>
          dsimp only
          rw [singleScoringPoints_eq_join _ tpls h, ih (i + 1)]
          cases hall : renderAll (multiEnv i d c r) tpls with
          | none => rfl
          | some fs =>
            cases concatSingleRenders tpls ans (i + 1) fuel with
            | none => rfl
            | some restS => rfl

/-- Claim C3, amended: for a **non-empty** `scoring_points` template list, the
multi-failure synthesis (render the whole template list per index `i` with
`idx = f'{i+1}-th'` and the i-th answer entries, join with the separator and
append one after each block) produces exactly the concatenation of `num`
single-style renders.  For the empty template list the two sides differ: the
multi path still appends one separator per index (see the counterexample). -/
theorem multi_scoring_is_concat_of_singles (tpls : List (List Chunk))
    (ans : MultiDict) (num : Nat) (h : tpls ≠ []) :
    multiScoringPoints tpls ans num = concatSingleRenders tpls ans 0 num :=
  multiScoringGo_eq_concat tpls h ans num 0

theorem multi_scoring_is_concat_of_singles_witness :
    multiScoringPoints
        [[Chunk.field FieldKey.idx, Chunk.lit ": ", Chunk.field FieldKey.component]]
        ⟨["d1", "d2"], ["c1", "c2"], ["r1", "r2"]⟩ 2 =
      concatSingleRenders
        [[Chunk.field FieldKey.idx, Chunk.lit ": ", Chunk.field FieldKey.component]]
        ⟨["d1", "d2"], ["c1", "c2"], ["r1", "r2"]⟩ 0 2 :=
  multi_scoring_is_concat_of_singles _ _ 2 (by decide)

/-- Claim C3, counterexample: with the empty template list and one answer, the
multi-failure output is one bare separator while the concatenation of one
single-style render is empty, so the claimed equality fails as universally
stated. -/
theorem multi_scoring_empty_list_counterexample :
    multiScoringPoints [] ⟨["d1"], ["c1"], ["r1"]⟩ 1 = some pysep ∧
      concatSingleRenders [] ⟨["d1"], ["c1"], ["r1"]⟩ 0 1 = some "" ∧
      multiScoringPoints [] ⟨["d1"], ["c1"], ["r1"]⟩ 1 ≠
        concatSingleRenders [] ⟨["d1"], ["c1"], ["r1"]⟩ 0 1 := by
  decide

/-! ## Input and output specification blocks -/

structure TaskTemplate where
  input : List (List Chunk)
  output : List (List Chunk)
  scoring_points : List (List Chunk)

/-- Environment of the output-specification render: every ground-truth field
is replaced by the literal marker. -/
def unknownEnv : FieldKey → Option String
  | FieldKey.time_period => some "**UNKNOWN**"
  | FieldKey.datetime => some "**UNKNOWN**"
  | FieldKey.component => some "**UNKNOWN**"
  | FieldKey.reason => some "**UNKNOWN**"
  | _ => none

/-- Environment of the input-specification render: `num` and `time_period`. -/
def inputEnv (num : Nat) (tp : String) : FieldKey → Option String
  | FieldKey.num => some (toString num)
  | FieldKey.time_period => some tp
  | _ => none

/-- The bullet-list body of a specification block: `"- "` plus the rendered
template plus the separator, per template. -/
def specLines (env : FieldKey → Option String) : List (List Chunk) → Option String
  | [] => some ""
  | t :: rest =>
    match renderTemplate env t, specLines env rest with
    | some s, some restS => some ("- " ++ s ++ pysep ++ restS)
    | _, _ => none

/-- Lines 244-254: the output specification block. -/
def buildOutputSpecification (outputs : List (List Chunk)) : Option String :=
  match specLines unknownEnv outputs with
  | some body => some (("```query" ++ pysep ++ body).trim ++ pysep ++ "```")
  | none => none

/-- Lines 229-241: the input specification block, with the optional extra
spec line appended before stripping. -/
def buildInputSpecification (inputs : List (List Chunk)) (num : Nat)
    (tp : String) (extra : Option String) : Option String :=
  match specLines (inputEnv num tp) inputs with
  | some body =>
    some (("```known" ++ pysep ++ body ++
      (match extra with
       | some x => "- " ++ x ++ pysep
       | none => "")).trim ++ pysep ++ "```")
  | none => none

/-- The two fenced blocks the generator builds for one record: the input
specification depends on the record (through its time period) and on `num`
and `extra`; the output specification is rendered from constants only. -/
def queryBlocksForRecord (tpl : TaskTemplate) (rec : FailureRecord) (num : Nat)
    (extra : Option String) : Option String × Option String :=
  (buildInputSpecification tpl.input num (timestamp2timeperiod rec.timestamp) extra,
    buildOutputSpecification tpl.output)

/-- Claim C4: the output-specification block renders each template of the
task's `output` list with the literal string `**UNKNOWN**` substituted for
every one of `time_period`, `datetime`, `component`, `reason`; consequently
it is a function of the task template alone, and two runs on records that
differ in their ground-truth values (and even in `num` or the extra spec)
produce identical output-specification blocks. -/
theorem output_spec_independent_of_record (tpl : TaskTemplate)
    (r1 r2 : FailureRecord) (n1 n2 : Nat) (e1 e2 : Option String) :
    (queryBlocksForRecord tpl r1 n1 e1).2 = (queryBlocksForRecord tpl r2 n2 e2).2 ∧
      (queryBlocksForRecord tpl r1 n1 e1).2 = buildOutputSpecification tpl.output ∧
      unknownEnv FieldKey.time_period = some "**UNKNOWN**" ∧
      unknownEnv FieldKey.datetime = some "**UNKNOWN**" ∧
      unknownEnv FieldKey.component = some "**UNKNOWN**" ∧
      unknownEnv FieldKey.reason = some "**UNKNOWN**" :=
  ⟨rfl, rfl, rfl, rfl, rfl, rfl⟩

/-! ## Per-record retry loop and dataset scan -/

structure GeneratedRow where
  task_index : String
  instruction : String
  scoring_points : String
deriving DecidableEq

/-- Lines 265-277: `for attempt in range(3)` around the LLM call; a success
breaks out, a failure on the final attempt records one error entry.  The
external collaborator is the injected `oracle`, mapping the attempt number to
the extracted `issue` text or to the attempt's failure message. -/
def attemptLoop (oracle : Nat → Except String String) : Option String × List String :=
  match oracle 0 with
  | Except.ok v => (some v, [])
  | Except.error _ =>
    match oracle 1 with
    | Except.ok v => (some v, [])
    | Except.error _ =>
      match oracle 2 with
      | Except.ok v => (some v, [])
      | Except.error e => (none, [e])

/-- `f"Record {idx}: {e}"`. -/
def recordErrEntry (idx : Nat) (e : String) : String :=
  "Record " ++ toString idx ++ ": " ++ e

/-- Lines 182-294, one iteration: `prep` is the outcome of the pre-LLM
computations of the `try` body (time strings, scoring points — an exception
there is caught by the outer handler and recorded); on success the retry loop
runs, and a row is appended only when an instruction was produced (Python's
`if instruction:` is also falsy for the empty string). -/
def processRecord (idx : Nat) (taskIndex : String) (prep : Except String String)
    (oracle : Nat → Except String String) : List GeneratedRow × List String :=
  match prep with
  | Except.error e => ([], [recordErrEntry idx e])
  | Except.ok scoring =>
    match attemptLoop oracle with
    | (some instruction, _) =>
      if instruction = "" then ([], [])
      else ([⟨taskIndex, instruction, scoring⟩], [])
    | (none, errs) => ([], errs.map (recordErrEntry idx))

/-- The dataset scan from row `idx` on: rows and error entries of each record
in order. -/
def processFrom (idx : Nat) :
    List (String × Except String String × (Nat → Except String String)) →
      List GeneratedRow × List String
  | [] => ([], [])
  | (ti, prep, orc) :: rest =>
    ((processRecord idx ti prep orc).1 ++ (processFrom (idx + 1) rest).1,
      (processRecord idx ti prep orc).2 ++ (processFrom (idx + 1) rest).2)

/-- The per-dataset scan of `generate_queries_for_dataset`, starting at 0. -/
def generateQueriesScan
    (records : List (String × Except String String × (Nat → Except String String))) :
    List GeneratedRow × List String :=
  processFrom 0 records

theorem processFrom_append (xs ys :
    List (String × Except String String × (Nat → Except String String))) :
    ∀ i, processFrom i (xs ++ ys) =
      ((processFrom i xs).1 ++ (processFrom (i + xs.length) ys).1,
        (processFrom i xs).2 ++ (processFrom (i + xs.length) ys).2) := by
  induction xs with
  | nil => intro i; simp [processFrom]
  | cons x rest ih =>
    intro i
    obtain ⟨ti, prep, orc⟩ := x
    rw [List.cons_append, processFrom, processFrom, ih (i + 1)]
    simp [List.append_assoc]
    constructor
    · have h : i + (rest.length + 1) = i + 1 + rest.length := by omega
      rw [h]
    · have h : i + (rest.length + 1) = i + 1 + rest.length := by omega
      rw [h]

/-- Claim C6: a record whose three LLM attempts all fail contributes zero rows
and exactly one error entry (the third attempt's), and the scan of the
surrounding dataset is exactly the scan of the records before it, this one
entry, and the scan of the records after it — processing continues instead of
aborting. -/
theorem retry_exhaustion_zero_rows_one_error
    (pre post : List (String × Except String String × (Nat → Except String String)))
    (ti scoring : String) (orc : Nat → Except String String) (e0 e1 e2 : String)
    (h0 : orc 0 = Except.error e0) (h1 : orc 1 = Except.error e1)
    (h2 : orc 2 = Except.error e2) :
    processRecord pre.length ti (Except.ok scoring) orc =
        ([], [recordErrEntry pre.length e2]) ∧
      generateQueriesScan (pre ++ (ti, Except.ok scoring, orc) :: post) =
        ((generateQueriesScan pre).1 ++ (processFrom (pre.length + 1) post).1,
          (generateQueriesScan pre).2 ++ recordErrEntry pre.length e2 ::
            (processFrom (pre.length + 1) post).2) := by
  have hrec : processRecord pre.length ti (Except.ok scoring) orc =
      ([], [recordErrEntry pre.length e2]) := by
    rw [processRecord, attemptLoop, h0, h1, h2]
    rfl
  refine ⟨hrec, ?_⟩
  rw [generateQueriesScan, generateQueriesScan, processFrom_append]
  simp only [Nat.zero_add]
  rw [processFrom, hrec]
  simp

theorem retry_exhaustion_zero_rows_one_error_witness :
    processRecord 0 "t" (Except.ok "s") (fun _ => Except.error "boom") =
      ([], [recordErrEntry 0 "boom"]) :=
  (retry_exhaustion_zero_rows_one_error [] [] "t" "s"
    (fun _ => Except.error "boom") "boom" "boom" "boom" rfl rfl rfl).1
